import Mathlib

/-!
Verification of the `atlasctl` Confluence page-export core
(`src/confluence.ts`) against its natural-language specification.

The TypeScript source is shallowly embedded: JS objects with optional
fields become Lean structures with `Option` fields; the `??` fallback
operator becomes `Option.getD`/`Option.bind` chains; thrown `Error`s
become an `AtlasError` sum returned through `Except`; the network is
modelled by passing the server's responses explicitly (a list of
response pages for the pagination loop, a well-founded raw comment
tree for the reply traversal).  All definitions are executable.
-/

namespace Atlasctl

/-- Validated configuration triple consumed by the core
(collaborator contract of `src/config.ts` / `RequiredConfig`). -/
structure RequiredConfig where
  site : String
  email : String
  apikey : String
deriving DecidableEq, Repr

/-- The error kinds of the core (§7 of the spec).  The source throws
`Error` values with the message strings reproduced by
`AtlasError.message` below. -/
inductive AtlasError where
  | invalidInput (msg : String)
  | hostMismatch (urlHost : String) (configSite : String)
  | transportError (status : Nat) (statusText : String) (method : String) (url : String)
deriving DecidableEq, Repr

/-- The user-visible message of each error, as thrown by the source. -/
def AtlasError.message : AtlasError → String
  | .invalidInput msg => msg
  | .hostMismatch urlHost configSite =>
      "URL host mismatch: URL uses " ++ urlHost ++ " but config site is " ++ configSite ++ "."
  | .transportError status statusText method url =>
      "Confluence API error " ++ toString status ++ " " ++ statusText ++ ": " ++ method ++ " " ++ url

/-! ## Output data model (`src/types.ts` shapes used by `confluence.ts`) -/

/-- Inline-annotation context of a comment (`Comment["inlineContext"]`). -/
structure InlineContext where
  textSelection : String
  markerRef : String
  resolved : Bool
deriving DecidableEq, Repr

/-- One normalized comment or reply node.  `children` is recursive, so
this is an inductive with one constructor rather than a structure. -/
inductive Comment where
  | mk (id : String) (title : String) (author : String) (created : String)
       (updated : String) (bodyHtml : String)
       (inlineContext : Option InlineContext)
       (children : List Comment) : Comment
deriving Repr

def Comment.id : Comment → String
  | .mk i _ _ _ _ _ _ _ => i

def Comment.title : Comment → String
  | .mk _ t _ _ _ _ _ _ => t

def Comment.author : Comment → String
  | .mk _ _ a _ _ _ _ _ => a

def Comment.created : Comment → String
  | .mk _ _ _ c _ _ _ _ => c

def Comment.updated : Comment → String
  | .mk _ _ _ _ u _ _ _ => u

def Comment.bodyHtml : Comment → String
  | .mk _ _ _ _ _ b _ _ => b

def Comment.inlineContext : Comment → Option InlineContext
  | .mk _ _ _ _ _ _ ic _ => ic

def Comment.children : Comment → List Comment
  | .mk _ _ _ _ _ _ _ cs => cs

/-- `comment.children = await fetchReplies(...)`: the source builds a
comment with `children: []` and then assigns the fetched replies. -/
def Comment.withChildren : Comment → List Comment → Comment
  | .mk i t a c u b ic _, kids => .mk i t a c u b ic kids

/-- The `page` part of a `PageExport`. -/
structure PageInfo where
  id : String
  title : String
  space : String
  url : String
  author : String
  created : String
  lastUpdated : String
  version : Int
  labels : List String
  bodyHtml : String
deriving DecidableEq, Repr

/-- The `meta` part of a `PageExport`. -/
structure PageMeta where
  fetchedAt : String
  totalComments : Nat
deriving DecidableEq, Repr

/-- The root output value of the export pipeline. -/
structure PageExport where
  page : PageInfo
  comments : List Comment
  meta : PageMeta

/-! ## Raw upstream record shapes

The REST responses are `any` in the source; these structures carry
exactly the fields the source reads, each `Option` where the source
guards with `?.` or falls back with `??`. -/

structure RawPerson where
  displayName : Option String
deriving DecidableEq, Repr

structure RawVersion where
  «by» : Option RawPerson
  when : Option String
  number : Option Int
deriving DecidableEq, Repr

structure RawHistory where
  createdBy : Option RawPerson
  createdDate : Option String
deriving DecidableEq, Repr

structure RawBodyFormat where
  value : Option String
deriving DecidableEq, Repr

structure RawBody where
  storage : Option RawBodyFormat
  view : Option RawBodyFormat
deriving DecidableEq, Repr

structure RawInlineProperties where
  originalSelection : Option String
  markerRef : Option String
deriving DecidableEq, Repr

structure RawResolution where
  status : Option String
deriving DecidableEq, Repr

structure RawExtensions where
  inlineProperties : Option RawInlineProperties
  resolution : Option RawResolution
deriving DecidableEq, Repr

/-- A raw comment record as read by `parseComment`. -/
structure RawComment where
  id : String
  title : Option String
  version : Option RawVersion
  history : Option RawHistory
  body : Option RawBody
  extensions : Option RawExtensions
deriving DecidableEq, Repr

/-! ## `countComments` and `parseComment` (confluence.ts lines 58-89) -/

/-- `countComments`: `comments.reduce((total, comment) =>
total + 1 + countComments(comment.children), 0)`, rendered as
structural recursion over the list (the reduce is a left fold of
`+`, which computes the same sum). -/
def countComments : List Comment → Nat
  | [] => 0
  | .mk _ _ _ _ _ _ _ children :: rest =>
      1 + countComments children + countComments rest

/-- `parseComment`: normalizes one raw comment record.  Each `??`
chain of the source becomes the corresponding `Option.bind`/`getD`
chain; `ext.resolution?.status === "resolved"` becomes a decidable
equality with `some "resolved"`. -/
def parseComment (raw : RawComment) : Comment :=
  let ext := raw.extensions.getD ⟨none, none⟩
  let inlineContext : Option InlineContext :=
    match ext.inlineProperties with
    | some ip =>
        some { textSelection := ip.originalSelection.getD ""
               markerRef := ip.markerRef.getD ""
               resolved := (ext.resolution.bind (·.status)) == some "resolved" }
    | none => none
  .mk raw.id
    (raw.title.getD "")
    (((raw.version.bind (·.«by»)).bind (·.displayName)).getD
      ((((raw.history.bind (·.createdBy)).bind (·.displayName))).getD "unknown"))
    ((raw.version.bind (·.when)).getD ((raw.history.bind (·.createdDate)).getD ""))
    ((raw.version.bind (·.when)).getD "")
    (((raw.body.bind (·.storage)).bind (·.value)).getD
      (((raw.body.bind (·.view)).bind (·.value)).getD ""))
    inlineContext
    []

deriving instance DecidableEq for Except

/-! ## Character-list string primitives

The JS string operations the source uses (`trim`, `toLowerCase`,
`startsWith`, `slice`, `split`) are modelled on the character lists
underlying `String`, so that every definition reduces in the kernel. -/

/-- `pre` is a prefix of `cs`. -/
def isPrefixList : List Char → List Char → Bool
  | [], _ => true
  | _, [] => false
  | p :: ps, c :: cs => p == c && isPrefixList ps cs

/-- `s.startsWith(pre)`. -/
def strStartsWith (s pre : String) : Bool :=
  isPrefixList pre.data s.data

/-- `s.slice(n)`: drop the first `n` characters. -/
def strDrop (s : String) (n : Nat) : String :=
  (s.data.drop n).asString

/-- Whether `s` is the empty string (JS falsiness of a string). -/
def strIsEmpty (s : String) : Bool :=
  s.data.isEmpty

/-- `s.toLowerCase()` (ASCII, as the source applies it to hosts). -/
def lowerStr (s : String) : String :=
  (s.data.map Char.toLower).asString

/-- `s.trim()`: strip leading and trailing whitespace. -/
def trimStr (s : String) : String :=
  ((s.data.dropWhile Char.isWhitespace).reverse.dropWhile Char.isWhitespace).reverse.asString

/-- Split at every occurrence of `sep` (keeping empty pieces). -/
def splitChar (sep : Char) : List Char → List (List Char)
  | [] => [[]]
  | c :: cs =>
      if c = sep then [] :: splitChar sep cs
      else
        match splitChar sep cs with
        | [] => [[c]]
        | l :: ls => (c :: l) :: ls

/-! ## Page input parsing (confluence.ts lines 14-56)

`new URL(value)` of JavaScript is modelled by `parseURL`, a simplified
WHATWG parser handling `scheme://host/pathname?query#fragment` (no
userinfo/port splitting, no percent-decoding); the claims and the
source only depend on host, pathname and query of ordinary http(s)
URLs.  The source's regexes are modelled directly on character lists. -/

/-- `/^\d+$/.test(s)`: nonempty and all decimal digits. -/
def isNumericString (s : String) : Bool :=
  !s.data.isEmpty && s.data.all Char.isDigit

/-- Split a character list at the first occurrence of `sep`;
`none` as second component when `sep` does not occur. -/
def splitOnFirst (sep : Char) : List Char → List Char × Option (List Char)
  | [] => ([], none)
  | c :: cs =>
      if c = sep then ([], some cs)
      else
        let r := splitOnFirst sep cs
        (c :: r.1, r.2)

/-- Split off the scheme at the first occurrence of the literal `"://"`. -/
def splitScheme : List Char → Option (List Char × List Char)
  | [] => none
  | ':' :: '/' :: '/' :: rest => some ([], rest)
  | c :: cs => (splitScheme cs).map (fun r => (c :: r.1, r.2))

/-- Components of a parsed URL that the source reads. -/
structure UrlParts where
  scheme : String
  host : String
  pathname : String
  query : String
deriving DecidableEq, Repr

/-- Everything before the first `#`: URL fragments are dropped. -/
def stripFragment (rest : List Char) : List Char :=
  (splitOnFirst '#' rest).1

/-- The authority (host) part: up to the first `/` or `?`. -/
def authorityOf (rest : List Char) : List Char :=
  (stripFragment rest).takeWhile (fun c => !(c = '/' || c = '?'))

/-- What follows the authority. -/
def tailOf (rest : List Char) : List Char :=
  (stripFragment rest).drop (authorityOf rest).length

/-- Pathname and query after the authority; an empty or query-only
tail has pathname `"/"`. -/
def pathQueryOf (rest : List Char) : List Char × List Char :=
  match tailOf rest with
  | '?' :: q => (['/'], q)
  | '/' :: _ =>
      ((splitOnFirst '?' (tailOf rest)).1, ((splitOnFirst '?' (tailOf rest)).2).getD [])
  | _ => (['/'], [])

/-- Simplified model of JavaScript `new URL`: requires
`scheme://host...` with a nonempty alphabetic scheme and nonempty
host, strips the fragment, and defaults the pathname to `"/"`. -/
def parseURL (s : String) : Option UrlParts :=
  match splitScheme s.data with
  | none => none
  | some (scheme, rest) =>
      if scheme.isEmpty || !scheme.all Char.isAlpha then none
      else if (authorityOf rest).isEmpty then none
      else
        some ⟨scheme.asString, (authorityOf rest).asString,
          (pathQueryOf rest).1.asString, (pathQueryOf rest).2.asString⟩

/-- Name=value pairs of a query string, as read by `URLSearchParams`:
split on `&`, each nonempty piece split at its first `=` (a piece
with no `=` maps the whole piece to the empty value).  Percent- and
plus-decoding are not modelled. -/
def queryPairs (q : String) : List (String × String) :=
  (splitChar '&' q.data).filterMap fun piece =>
    if piece.isEmpty then none
    else
      let r := splitOnFirst '=' piece
      some (r.1.asString, (r.2.getD []).asString)

/-- `url.searchParams.get(key)`: first value bound to `key`, if any. -/
def searchParamsGet (q : String) (key : String) : Option String :=
  ((queryPairs q).find? (fun p => p.1 = key)).map (·.2)

/-- Try the regex `\/pages\/(\d+)(?:\/|$)` at the head of `cs`:
the literal `/pages/`, then a maximal nonempty digit run, then end
of string or `/`.  (The greedy `\d+` never needs backtracking here:
any shorter digit run is followed by a digit.) -/
def matchPagesAt (cs : List Char) : Option (List Char) :=
  match cs with
  | '/' :: 'p' :: 'a' :: 'g' :: 'e' :: 's' :: '/' :: after =>
      let ds := after.takeWhile Char.isDigit
      if ds.isEmpty then none
      else
        match after.drop ds.length with
        | [] => some ds
        | '/' :: _ => some ds
        | _ => none
  | _ => none

/-- First (leftmost) match of `/\/pages\/(\d+)(?:\/|$)/` in the
pathname: `url.pathname.match(...)?.[1]`. -/
def findPagesId : List Char → Option String
  | [] => none
  | c :: cs =>
      match matchPagesAt (c :: cs) with
      | some ds => some ds.asString
      | none => findPagesId cs

/-- Result shape of `parsePageInput`. -/
structure ParsedPageInput where
  pageId : String
  hostFromUrl : Option String
deriving DecidableEq, Repr

/-- `parsePageInput` (lines 14-41): trimmed all-digit input is the
page ID directly; otherwise the input must parse as a URL, and the ID
comes from the first `/pages/<digits>` path match, else the `pageId`
query parameter; thrown `Error`s become `Except.error`.  The source's
`!pageId || !/^\d+$/.test(pageId)` collapses to the numeric test,
since the empty string is not numeric. -/
def parsePageInput (idOrUrl : String) : Except AtlasError ParsedPageInput :=
  let value := trimStr idOrUrl
  if isNumericString value then .ok ⟨value, none⟩
  else
    match parseURL value with
    | none =>
        .error (.invalidInput
          "Invalid page identifier. Provide a numeric page ID or a full Confluence page URL.")
    | some url =>
        let fromPath := findPagesId url.pathname.data
        let fromQuery := searchParamsGet url.query "pageId"
        match fromPath <|> fromQuery with
        | none =>
            .error (.invalidInput "Could not extract a numeric page ID from the provided URL.")
        | some pageId =>
            if isNumericString pageId then .ok ⟨pageId, some (lowerStr url.host)⟩
            else .error (.invalidInput
              "Could not extract a numeric page ID from the provided URL.")

/-- `resolvePageIdForSite` (lines 43-56): fail when a URL-derived host
is truthy (nonempty) and differs from the lowercased configured site. -/
def resolvePageIdForSite (idOrUrl : String) (configuredSite : String) :
    Except AtlasError String := do
  let parsed ← parsePageInput idOrUrl
  match parsed.hostFromUrl with
  | some h =>
      if !(strIsEmpty h) && h ≠ lowerStr configuredSite then
        .error (.hostMismatch h configuredSite)
      else
        .ok parsed.pageId
  | none => .ok parsed.pageId

/-! ## HTTP client and pagination (confluence.ts lines 91-148)

A server is modelled by the sequence of responses it will return; the
loop of `fetchAllPages` consumes them in order, because pages are
fetched strictly sequentially (each request URL depends on the
previous response).  The request-URL trace is recorded so that
claims about which requests were issued can be stated. -/

/-- The `results` field of a listing response: a JSON array, some
non-array value, or absent (`Array.isArray` distinguishes the first
from the other two). -/
inductive ResultsField (α : Type) where
  | arr (items : List α)
  | nonArray
  | missing
deriving DecidableEq, Repr

/-- One HTTP response of the paginated listing server: status line
plus the two body fields the loop reads (`results`, `_links.next`;
an absent `_links` and an absent `next` both yield `none`). -/
structure RespPage (α : Type) where
  status : Nat
  statusText : String
  results : ResultsField α
  next : Option String
deriving DecidableEq, Repr

/-- `response.ok` of `fetch`: status in the range 200-299. -/
def statusOk (status : Nat) : Bool :=
  200 ≤ status && status ≤ 299

/-- The items a response page contributes: its `results` when that is
an array, nothing otherwise (`if (Array.isArray(page.results))`). -/
def pageItems : ResultsField α → List α
  | .arr items => items
  | .nonArray => []
  | .missing => []

/-- Concatenation of the array-shaped `results` of a response list. -/
def flatResults : List (RespPage α) → List α
  | [] => []
  | r :: rs => pageItems r.results ++ flatResults rs

/-- `normalizePaginationLink` (lines 91-101): absolute http(s) links
pass through; links beginning with `"/wiki/"` lose the 5-character
prefix `"/wiki"`; anything else passes through. -/
def normalizePaginationLink (next : String) : String :=
  if strStartsWith next "http://" || strStartsWith next "https://" then next
  else if strStartsWith next "/wiki/" then strDrop next 5
  else next

/-- `page._links?.next ? normalizePaginationLink(page._links.next) :
null` (line 137): the `?:` tests JS truthiness, so an absent `_links`,
an absent `next` and an empty-string `next` all yield `null`. -/
def nextLink (r : RespPage α) : Option String :=
  match r.next with
  | some n => if strIsEmpty n then none else some (normalizePaginationLink n)
  | none => none

/-- Whether a response page makes the loop continue. -/
def nextTruthy (r : RespPage α) : Bool :=
  (nextLink r).isSome

/-- URL construction of `apiGet` (lines 113-116): absolute inputs are
used as-is, otherwise the base URL is prepended (with a `/` inserted
unless the path already starts with one). -/
def resolveRequestUrl (baseUrl : String) (pathOrUrl : String) : String :=
  if strStartsWith pathOrUrl "http://" || strStartsWith pathOrUrl "https://" then pathOrUrl
  else baseUrl ++ (if strStartsWith pathOrUrl "/" then pathOrUrl else "/" ++ pathOrUrl)

/-- `https://${config.site}/wiki` (line 104). -/
def clientBaseUrl (config : RequiredConfig) : String :=
  "https://" ++ config.site ++ "/wiki"

/-- `apiGet` on a single response: non-2xx throws the transport error
naming status, status text, method and URL; otherwise the body is
returned. -/
def apiGet (baseUrl : String) (pathOrUrl : String) (response : RespPage α) :
    Except AtlasError (RespPage α) :=
  let url := resolveRequestUrl baseUrl pathOrUrl
  if statusOk response.status then .ok response
  else .error (.transportError response.status response.statusText "GET" url)

/-- Result of running the pagination loop against a finite response
list: normal completion, a transport failure, or exhaustion of the
modelled responses while another request was still pending.  Each
constructor carries the trace of request URLs issued. -/
inductive FetchOutcome (α : Type) where
  | done (items : List α) (requests : List String)
  | failed (error : AtlasError) (requests : List String)
  | starved (requests : List String)
deriving DecidableEq, Repr

/-- The `while (next)` loop of `fetchAllPages` (lines 127-141): GET
the current URL, fail on non-2xx, append array-shaped `results`,
continue with the normalized `_links.next` while it is truthy. -/
def fetchAllGo (baseUrl : String) :
    String → List (RespPage α) → List α → List String → FetchOutcome α
  | _, [], _, reqs => .starved reqs
  | url, r :: rs, acc, reqs =>
      let reqs' := reqs ++ [url]
      if statusOk r.status then
        let acc' := acc ++ pageItems r.results
        match nextLink r with
        | some n => fetchAllGo baseUrl (resolveRequestUrl baseUrl n) rs acc' reqs'
        | none => .done acc' reqs'
      else .failed (.transportError r.status r.statusText "GET" url) reqs'

/-- `fetchAllPages(path)` run against the response list `responses`. -/
def fetchAllPages (baseUrl : String) (path : String) (responses : List (RespPage α)) :
    FetchOutcome α :=
  fetchAllGo baseUrl (resolveRequestUrl baseUrl path) responses [] []

/-! ## Comment tree traversal and page export (confluence.ts lines 150-206)

The upstream reply relation is modelled by `RawTree`: each node is a
raw comment record together with the replies the server returns for
its id.  Being an inductive type, every chain of replies is finite —
exactly the well-foundedness hypothesis of the spec.  `fetchReplies`
is the recursive traversal; it needs no depth cap because it is
structural over the tree. -/

/-- The reply structure the server holds: a raw record and the reply
trees of its children. -/
inductive RawTree where
  | node (record : RawComment) (replies : List RawTree)
deriving Repr

def RawTree.record : RawTree → RawComment
  | .node r _ => r

def RawTree.replies : RawTree → List RawTree
  | .node _ rs => rs

/-- `fetchReplies` / the top-level comment loop: for each raw record
in order, `parseComment` it and recursively attach its fetched
replies as `children` (depth-first, preserving sibling order). -/
def fetchReplies : List RawTree → List Comment
  | [] => []
  | .node raw replies :: rest =>
      (parseComment raw).withChildren (fetchReplies replies) :: fetchReplies rest

/-- A raw page record as read by `fetchConfluencePage` (lines 187-199). -/
structure RawLabel where
  name : String
deriving DecidableEq, Repr

structure RawLabels where
  results : Option (List RawLabel)
deriving DecidableEq, Repr

structure RawMetadata where
  labels : Option RawLabels
deriving DecidableEq, Repr

structure RawSpace where
  key : Option String
deriving DecidableEq, Repr

structure RawLinks where
  webui : Option String
deriving DecidableEq, Repr

structure RawPage where
  id : String
  title : String
  space : Option RawSpace
  _links : Option RawLinks
  version : Option RawVersion
  history : Option RawHistory
  metadata : Option RawMetadata
  body : Option RawBody
deriving DecidableEq, Repr

/-- The successful upstream world for one export: the raw page record
and the full (well-founded) comment tree the listing endpoints hold. -/
structure PageServer where
  rawPage : RawPage
  comments : List RawTree

/-- The page-metadata GET path (line 173). -/
def pagePath (pageId : String) : String :=
  "/rest/api/content/" ++ pageId ++ "?expand=body.storage,version,history,space,metadata.labels"

/-- The child-comment listing path (lines 152, 177). -/
def childCommentPath (id : String) : String :=
  "/rest/api/content/" ++ id ++
    "/child/comment?expand=body.storage,version,extensions.inlineProperties,extensions.resolution&limit=100"

/-- Request paths issued by the reply traversal, depth-first: for each
node, the listing of its children, then recursively below. -/
def treeRequests : List RawTree → List String
  | [] => []
  | .node raw replies :: rest =>
      childCommentPath raw.id :: (treeRequests replies ++ treeRequests rest)

/-- Outcome of `fetchConfluencePage` together with the request paths
it issued, in order. -/
structure FetchResult where
  outcome : Except AtlasError PageExport
  requests : List String

/-- `fetchConfluencePage` (lines 165-206) over the successful server
model: resolve the page id first (before any request), then assemble
the export.  `new Date().toISOString()` is the `now` parameter. -/
def fetchConfluencePage (config : RequiredConfig) (idOrUrl : String)
    (srv : PageServer) (now : String) : FetchResult :=
  match resolvePageIdForSite idOrUrl config.site with
  | .error e => ⟨.error e, []⟩
  | .ok pageId =>
      let baseUrl := clientBaseUrl config
      let page := srv.rawPage
      let comments := fetchReplies srv.comments
      ⟨.ok
        { page :=
            { id := page.id
              title := page.title
              space := (page.space.bind (·.key)).getD ""
              url := baseUrl ++ ((page._links.bind (·.webui)).getD "")
              author := (((page.version.bind (·.«by»)).bind (·.displayName))).getD "unknown"
              created := (page.history.bind (·.createdDate)).getD
                ((page.version.bind (·.when)).getD "")
              lastUpdated := (page.version.bind (·.when)).getD ""
              version := (page.version.bind (·.number)).getD 1
              labels := (((page.metadata.bind (·.labels)).bind (·.results)).getD []).map (·.name)
              bodyHtml := ((page.body.bind (·.storage)).bind (·.value)).getD "" }
          comments := comments
          meta := { fetchedAt := now, totalComments := countComments comments } },
        pagePath pageId :: childCommentPath pageId :: treeRequests srv.comments⟩

/-! ## Measures on comment trees, and sample trees -/

/-- All nodes reachable from a comment list via `children`, preorder. -/
def flattenComments : List Comment → List Comment
  | [] => []
  | .mk i t a c u b ic children :: rest =>
      .mk i t a c u b ic children :: (flattenComments children ++ flattenComments rest)

/-- Depth of a comment forest: 0 for the empty forest, else the
maximal number of nodes on a root-to-leaf path. -/
def commentsDepth : List Comment → Nat
  | [] => 0
  | .mk _ _ _ _ _ _ _ children :: rest =>
      max (1 + commentsDepth children) (commentsDepth rest)

/-- Number of nodes of a raw comment forest. -/
def rawCount : List RawTree → Nat
  | [] => 0
  | .node _ replies :: rest => 1 + rawCount replies + rawCount rest

/-- Depth of a raw comment forest. -/
def rawDepth : List RawTree → Nat
  | [] => 0
  | .node _ replies :: rest => max (1 + rawDepth replies) (rawDepth rest)

/-- A minimal raw comment record (only the mandatory id). -/
def sampleRaw (id : String) : RawComment :=
  ⟨id, none, none, none, none, none⟩

/-- A single reply chain of the given depth. -/
def chainRaw : Nat → List RawTree
  | 0 => []
  | n + 1 => [.node (sampleRaw "1") (chainRaw n)]

/-- The uniform forest of the given depth and fan-out: every node at
depth below `d` has `f` replies. -/
def fanRaw : Nat → Nat → List RawTree
  | 0, _ => []
  | d + 1, f => List.replicate f (.node (sampleRaw "1") (fanRaw d f))

/-! ## Foundational lemmas -/

theorem countComments_cons_withChildren (c : Comment) (kids rest : List Comment) :
    countComments (c.withChildren kids :: rest) =
      1 + countComments kids + countComments rest := by
  cases c
  simp [Comment.withChildren, countComments]

theorem commentsDepth_cons_withChildren (c : Comment) (kids rest : List Comment) :
    commentsDepth (c.withChildren kids :: rest) =
      max (1 + commentsDepth kids) (commentsDepth rest) := by
  cases c
  simp [Comment.withChildren, commentsDepth]

theorem children_withChildren (c : Comment) (kids : List Comment) :
    (c.withChildren kids).children = kids := by
  cases c
  rfl

theorem countComments_eq_flatten_length :
    (cs : List Comment) → countComments cs = (flattenComments cs).length
  | [] => by simp [countComments, flattenComments]
  | .mk i t a c u b ic children :: rest => by
      simp only [countComments, flattenComments, List.length_cons, List.length_append,
        countComments_eq_flatten_length children, countComments_eq_flatten_length rest]
      omega

theorem fetchReplies_count :
    (ts : List RawTree) → countComments (fetchReplies ts) = rawCount ts
  | [] => by simp [fetchReplies, countComments, rawCount]
  | .node raw replies :: rest => by
      simp only [fetchReplies, rawCount, countComments_cons_withChildren,
        fetchReplies_count replies, fetchReplies_count rest]

theorem fetchReplies_depth :
    (ts : List RawTree) → commentsDepth (fetchReplies ts) = rawDepth ts
  | [] => by simp [fetchReplies, commentsDepth, rawDepth]
  | .node raw replies :: rest => by
      simp only [fetchReplies, rawDepth, commentsDepth_cons_withChildren,
        fetchReplies_depth replies, fetchReplies_depth rest]

theorem fetchReplies_length :
    (ts : List RawTree) → (fetchReplies ts).length = ts.length
  | [] => by simp [fetchReplies]
  | .node raw replies :: rest => by
      simp only [fetchReplies, List.length_cons, fetchReplies_length rest]

theorem rawDepth_chainRaw : (d : Nat) → rawDepth (chainRaw d) = d
  | 0 => by simp [chainRaw, rawDepth]
  | d + 1 => by
      simp [chainRaw, rawDepth, rawDepth_chainRaw d]
      omega

/-! ## Pagination chain lemmas -/

/-- A well-formed finite response chain: every page 2xx, every page
but the last carries a truthy `next`, the last does not. -/
def chainOk : List (RespPage α) → Bool
  | [] => false
  | r :: rs =>
      statusOk r.status &&
        (if rs.isEmpty then !(nextTruthy r) else nextTruthy r && chainOk rs)

theorem fetchAllGo_chain (baseUrl : String) :
    (rs : List (RespPage α)) → (url : String) → (acc : List α) → (reqs : List String) →
    chainOk rs = true →
    ∃ reqs2,
      fetchAllGo baseUrl url rs acc reqs = .done (acc ++ flatResults rs) reqs2 ∧
        reqs2.length = reqs.length + rs.length
  | [], url, acc, reqs, h => by simp [chainOk] at h
  | [r], url, acc, reqs, h => by
      simp [chainOk, nextTruthy] at h
      obtain ⟨hok, hnext⟩ := h
      refine ⟨reqs ++ [url], ?_, by simp⟩
      simp [fetchAllGo, hok, hnext, flatResults]
  | r :: r2 :: rs, url, acc, reqs, h => by
      simp [chainOk, nextTruthy] at h
      obtain ⟨hok, hsome, hchain⟩ := h
      obtain ⟨n, hn⟩ := Option.isSome_iff_exists.mp hsome
      obtain ⟨reqs2, heq, hlen⟩ :=
        fetchAllGo_chain baseUrl (r2 :: rs) (resolveRequestUrl baseUrl n)
          (acc ++ pageItems r.results) (reqs ++ [url])
          (by simp [chainOk, nextTruthy]; exact hchain)
      have step : fetchAllGo baseUrl url (r :: r2 :: rs) acc reqs =
          fetchAllGo baseUrl (resolveRequestUrl baseUrl n) (r2 :: rs)
            (acc ++ pageItems r.results) (reqs ++ [url]) := by
        conv_lhs => rw [fetchAllGo]
        simp [hok, hn]
      refine ⟨reqs2, ?_, by simp at hlen ⊢; omega⟩
      rw [step, heq]
      simp [flatResults]

theorem fetchAllGo_fail (baseUrl : String) :
    (pre : List (RespPage α)) → (bad : RespPage α) → (rest : List (RespPage α)) →
    (url : String) → (acc : List α) → (reqs : List String) →
    (∀ p ∈ pre, statusOk p.status = true ∧ nextTruthy p = true) →
    statusOk bad.status = false →
    ∃ u reqs2,
      fetchAllGo baseUrl url (pre ++ bad :: rest) acc reqs =
        .failed (.transportError bad.status bad.statusText "GET" u) reqs2 ∧
        reqs2.length = reqs.length + pre.length + 1 ∧
        reqs2.getLast? = some u
  | [], bad, rest, url, acc, reqs, _, hbad => by
      refine ⟨url, reqs ++ [url], ?_, by simp, by simp⟩
      simp [fetchAllGo, hbad]
  | p :: pre, bad, rest, url, acc, reqs, hpre, hbad => by
      obtain ⟨hok, hnext⟩ := hpre p (by simp)
      obtain ⟨n, hn⟩ := Option.isSome_iff_exists.mp (by simpa [nextTruthy] using hnext)
      obtain ⟨u, reqs2, heq, hlen, hlast⟩ :=
        fetchAllGo_fail baseUrl pre bad rest (resolveRequestUrl baseUrl n)
          (acc ++ pageItems p.results) (reqs ++ [url])
          (fun q hq => hpre q (by simp [hq])) hbad
      have step : fetchAllGo baseUrl url ((p :: pre) ++ bad :: rest) acc reqs =
          fetchAllGo baseUrl (resolveRequestUrl baseUrl n) (pre ++ bad :: rest)
            (acc ++ pageItems p.results) (reqs ++ [url]) := by
        conv_lhs => rw [List.cons_append, fetchAllGo]
        simp [hok, hn]
      refine ⟨u, reqs2, ?_, by simp at hlen ⊢; omega, hlast⟩
      rw [step, heq]

/-! ## Claim theorems -/

/-- C6: for every raw comment record, normalization produces `author`
equal to the version-author display name, else the history-creator
display name, else `"unknown"`; `created` equal to the version
timestamp, else the history creation date, else `""`; and `bodyHtml`
equal to the storage-format body, else the view-format body, else
`""`. -/
theorem C6_parseComment_fallbacks (raw : RawComment) :
    (∀ n, (raw.version.bind (·.«by»)).bind (·.displayName) = some n →
      (parseComment raw).author = n) ∧
    ((raw.version.bind (·.«by»)).bind (·.displayName) = none →
      ∀ n, (raw.history.bind (·.createdBy)).bind (·.displayName) = some n →
        (parseComment raw).author = n) ∧
    ((raw.version.bind (·.«by»)).bind (·.displayName) = none →
      (raw.history.bind (·.createdBy)).bind (·.displayName) = none →
        (parseComment raw).author = "unknown") ∧
    (∀ t, raw.version.bind (·.when) = some t → (parseComment raw).created = t) ∧
    (raw.version.bind (·.when) = none →
      ∀ t, raw.history.bind (·.createdDate) = some t → (parseComment raw).created = t) ∧
    (raw.version.bind (·.when) = none → raw.history.bind (·.createdDate) = none →
      (parseComment raw).created = "") ∧
    (∀ b, (raw.body.bind (·.storage)).bind (·.value) = some b →
      (parseComment raw).bodyHtml = b) ∧
    ((raw.body.bind (·.storage)).bind (·.value) = none →
      ∀ b, (raw.body.bind (·.view)).bind (·.value) = some b →
        (parseComment raw).bodyHtml = b) ∧
    ((raw.body.bind (·.storage)).bind (·.value) = none →
      (raw.body.bind (·.view)).bind (·.value) = none →
        (parseComment raw).bodyHtml = "") := by
  refine ⟨?_, ?_, ?_, ?_, ?_, ?_, ?_, ?_, ?_⟩
  · intro n h
    simp [parseComment, Comment.author, h]
  · intro h1 n h2
    simp [parseComment, Comment.author, h1, h2]
  · intro h1 h2
    simp [parseComment, Comment.author, h1, h2]
  · intro t h
    simp [parseComment, Comment.created, h]
  · intro h1 t h2
    simp [parseComment, Comment.created, h1, h2]
  · intro h1 h2
    simp [parseComment, Comment.created, h1, h2]
  · intro b h
    simp [parseComment, Comment.bodyHtml, h]
  · intro h1 b h2
    simp [parseComment, Comment.bodyHtml, h1, h2]
  · intro h1 h2
    simp [parseComment, Comment.bodyHtml, h1, h2]

/-- Sample record for the C6 witness: version author and timestamp
present. -/
def rawC6 : RawComment :=
  ⟨"1", none, some ⟨some ⟨some "Alice"⟩, some "2024-01-01", none⟩, none, none, none⟩

theorem C6_parseComment_fallbacks_witness :
    (parseComment rawC6).author = "Alice" ∧
    (parseComment rawC6).created = "2024-01-01" ∧
    (parseComment (sampleRaw "2")).author = "unknown" ∧
    (parseComment (sampleRaw "2")).bodyHtml = "" :=
  ⟨(C6_parseComment_fallbacks rawC6).1 "Alice" rfl,
   (C6_parseComment_fallbacks rawC6).2.2.2.1 "2024-01-01" rfl,
   (C6_parseComment_fallbacks (sampleRaw "2")).2.2.1 rfl rfl,
   (C6_parseComment_fallbacks (sampleRaw "2")).2.2.2.2.2.2.2.2 rfl rfl⟩

/-- C7: the normalized `inlineContext` is present iff the raw record
carries `extensions.inlineProperties`; when absent it is absent
entirely (`none`); when present, `textSelection` and `markerRef`
default to `""` and `resolved` is `true` iff the resolution status is
exactly the literal `"resolved"`. -/
theorem C7_inlineContext (raw : RawComment) :
    ((parseComment raw).inlineContext.isSome ↔
      (raw.extensions.bind (·.inlineProperties)).isSome) ∧
    (raw.extensions.bind (·.inlineProperties) = none →
      (parseComment raw).inlineContext = none) ∧
    (∀ ext ip, raw.extensions = some ext → ext.inlineProperties = some ip →
      (parseComment raw).inlineContext = some
        { textSelection := ip.originalSelection.getD ""
          markerRef := ip.markerRef.getD ""
          resolved := (ext.resolution.bind (·.status)) == some "resolved" }) ∧
    (∀ ic, (parseComment raw).inlineContext = some ic →
      (ic.resolved = true ↔
        (raw.extensions.bind (·.resolution)).bind (·.status) = some "resolved")) := by
  refine ⟨?_, ?_, ?_, ?_⟩
  · cases hext : raw.extensions with
    | none => simp [parseComment, Comment.inlineContext, hext]
    | some ext =>
        cases hip : ext.inlineProperties <;>
          simp [parseComment, Comment.inlineContext, hext, hip]
  · intro h
    cases hext : raw.extensions with
    | none => simp [parseComment, Comment.inlineContext, hext]
    | some ext =>
        rw [hext] at h
        simp at h
        simp [parseComment, Comment.inlineContext, hext, h]
  · intro ext ip hext hip
    simp [parseComment, Comment.inlineContext, hext, hip]
  · intro ic hic
    cases hext : raw.extensions with
    | none => simp [parseComment, Comment.inlineContext, hext] at hic
    | some ext =>
        cases hip : ext.inlineProperties with
        | none => simp [parseComment, Comment.inlineContext, hext, hip] at hic
        | some ip =>
            simp [parseComment, Comment.inlineContext, hext, hip] at hic
            subst hic
            simp [hext, beq_iff_eq]

/-- Sample records for the C7 witness: one with inline properties and
a `"resolved"` resolution status, one without extensions. -/
def rawC7 : RawComment :=
  ⟨"3", none, none, none, none, some ⟨some ⟨none, some "m1"⟩, some ⟨some "resolved"⟩⟩⟩

theorem C7_inlineContext_witness :
    (parseComment rawC7).inlineContext =
      some { textSelection := "", markerRef := "m1", resolved := true } ∧
    (parseComment (sampleRaw "4")).inlineContext = none :=
  ⟨(C7_inlineContext rawC7).2.2.1 ⟨some ⟨none, some "m1"⟩, some ⟨some "resolved"⟩⟩
      ⟨none, some "m1"⟩ rfl rfl,
   (C7_inlineContext (sampleRaw "4")).2.1 rfl⟩

/-- C1: in every `PageExport` returned by `fetchConfluencePage`,
`meta.totalComments` equals the number of `Comment` nodes reachable
from `comments` via `children` (the length of the preorder
flattening), which is the recursive sum over all comments of
`1 + count(children)` computed by `countComments`; a page with zero
comments has `totalComments` 0, and a tree of depth 3 with fan-out 2
has `totalComments` 14. -/
theorem C1_totalComments (config : RequiredConfig) (idOrUrl : String)
    (srv : PageServer) (now : String) (e : PageExport)
    (h : (fetchConfluencePage config idOrUrl srv now).outcome = .ok e) :
    e.meta.totalComments = (flattenComments e.comments).length ∧
    e.meta.totalComments = countComments e.comments ∧
    (e.comments = [] → e.meta.totalComments = 0) ∧
    countComments (fetchReplies (fanRaw 3 2)) = 14 := by
  have hmeta : e.meta.totalComments = countComments e.comments := by
    unfold fetchConfluencePage at h
    cases hres : resolvePageIdForSite idOrUrl config.site <;> rw [hres] at h <;>
      simp at h
    rw [← h]
  refine ⟨?_, hmeta, ?_, ?_⟩
  · rw [hmeta, countComments_eq_flatten_length]
  · intro hnil
    rw [hmeta, hnil]
    simp [countComments]
  · rw [fetchReplies_count]
    simp [fanRaw, rawCount, List.replicate]

/-- Concrete input for witnesses: a config, a bare raw page, and a
server whose comment tree is the depth-3 fan-out-2 forest. -/
def cfgW : RequiredConfig :=
  ⟨"example.atlassian.net", "user@example.com", "key"⟩

def rawPageW : RawPage :=
  ⟨"123", "Title", none, none, none, none, none, none⟩

def srvW : PageServer := ⟨rawPageW, fanRaw 3 2⟩

/-- The export `fetchConfluencePage cfgW "123" srvW "t0"` produces. -/
def exportW : PageExport :=
  { page :=
      { id := "123", title := "Title", space := ""
        url := "https://example.atlassian.net/wiki"
        author := "unknown", created := "", lastUpdated := ""
        version := 1, labels := [], bodyHtml := "" }
    comments := fetchReplies (fanRaw 3 2)
    meta := { fetchedAt := "t0", totalComments := 14 } }

theorem fetchConfluencePage_cfgW :
    (fetchConfluencePage cfgW "123" srvW "t0").outcome = .ok exportW := by
  have hres : resolvePageIdForSite "123" cfgW.site = .ok "123" := by decide
  have hcount : countComments (fetchReplies (fanRaw 3 2)) = 14 := by
    rw [fetchReplies_count]
    simp [fanRaw, rawCount, List.replicate]
  unfold fetchConfluencePage
  rw [hres]
  simp only [exportW, srvW, rawPageW, cfgW, clientBaseUrl, hcount]
  norm_num [Option.bind]
  decide

theorem C1_totalComments_witness :
    (fetchConfluencePage cfgW "123" srvW "t0").outcome = .ok exportW ∧
    exportW.meta.totalComments = (flattenComments exportW.comments).length ∧
    exportW.meta.totalComments = countComments exportW.comments ∧
    (exportW.comments = [] → exportW.meta.totalComments = 0) ∧
    countComments (fetchReplies (fanRaw 3 2)) = 14 :=
  ⟨fetchConfluencePage_cfgW,
   C1_totalComments cfgW "123" srvW "t0" exportW fetchConfluencePage_cfgW⟩

/-- C8: the recursive reply traversal is a total function of the
well-founded reply structure (an inductive tree, i.e. every chain of
replies reaches a comment with zero replies), and it returns the
complete tree: node count, depth and sibling count are all preserved,
and every depth `d` is realized by some input (no fixed depth cap).
When input resolution succeeds, `fetchConfluencePage` returns exactly
this traversal of the server's tree. -/
theorem C8_reply_traversal (config : RequiredConfig) (idOrUrl : String)
    (srv : PageServer) (now : String) :
    (∀ pageId, resolvePageIdForSite idOrUrl config.site = .ok pageId →
      ∃ e, (fetchConfluencePage config idOrUrl srv now).outcome = .ok e ∧
        e.comments = fetchReplies srv.comments) ∧
    countComments (fetchReplies srv.comments) = rawCount srv.comments ∧
    commentsDepth (fetchReplies srv.comments) = rawDepth srv.comments ∧
    (fetchReplies srv.comments).length = srv.comments.length ∧
    (∀ d, commentsDepth (fetchReplies (chainRaw d)) = d) := by
  refine ⟨?_, fetchReplies_count srv.comments, fetchReplies_depth srv.comments,
    fetchReplies_length srv.comments, ?_⟩
  · intro pageId hres
    unfold fetchConfluencePage
    rw [hres]
    exact ⟨_, rfl, rfl⟩
  · intro d
    rw [fetchReplies_depth, rawDepth_chainRaw]

theorem C8_reply_traversal_witness :
    (∃ e, (fetchConfluencePage cfgW "123" ⟨rawPageW, chainRaw 5⟩ "t0").outcome = .ok e ∧
      e.comments = fetchReplies (chainRaw 5)) ∧
    commentsDepth (fetchReplies (chainRaw 5)) = 5 :=
  ⟨(C8_reply_traversal cfgW "123" ⟨rawPageW, chainRaw 5⟩ "t0").1 "123" (by decide),
   (C8_reply_traversal cfgW "123" ⟨rawPageW, chainRaw 5⟩ "t0").2.2.2.2 5⟩

/-- The raw page of the C9 counterexample: upstream version number 0. -/
def rawPageV0 : RawPage :=
  ⟨"9", "T", none, none, some ⟨none, none, some 0⟩, none, none, none⟩

/-- The export the code produces for `rawPageV0`. -/
def exportV0 : PageExport :=
  { page :=
      { id := "9", title := "T", space := ""
        url := "https://example.atlassian.net/wiki"
        author := "unknown", created := "", lastUpdated := ""
        version := 0, labels := [], bodyHtml := "" }
    comments := []
    meta := { fetchedAt := "t0", totalComments := 0 } }

/-- C9 counterexample: when the upstream page record carries version
number 0, the returned export has `page.version = 0 < 1`, refuting
"page.version is always ≥ 1". -/
theorem C9_counterexample :
    (fetchConfluencePage cfgW "123" ⟨rawPageV0, []⟩ "t0").outcome = .ok exportV0 ∧
    exportV0.page.version = 0 ∧ ¬(1 ≤ exportV0.page.version) := by
  refine ⟨?_, by decide, by decide⟩
  have hres : resolvePageIdForSite "123" cfgW.site = .ok "123" := by decide
  unfold fetchConfluencePage
  rw [hres]
  simp only [exportV0, rawPageV0, cfgW, clientBaseUrl]
  simp [fetchReplies, countComments, Option.bind]

/-- C9 (amended): `page.version` equals the upstream version number
when present and defaults to 1 when absent; hence it is ≥ 1 whenever
the upstream number is absent or itself ≥ 1 (but the code imposes no
lower bound of its own). -/
theorem C9_version_default (config : RequiredConfig) (idOrUrl : String)
    (srv : PageServer) (now : String) (e : PageExport)
    (h : (fetchConfluencePage config idOrUrl srv now).outcome = .ok e) :
    e.page.version = (srv.rawPage.version.bind (·.number)).getD 1 ∧
    (srv.rawPage.version.bind (·.number) = none → e.page.version = 1) ∧
    (∀ n, srv.rawPage.version.bind (·.number) = some n → 1 ≤ n →
      1 ≤ e.page.version) ∧
    (srv.rawPage.version.bind (·.number) = none → 1 ≤ e.page.version) := by
  have hver : e.page.version = (srv.rawPage.version.bind (·.number)).getD 1 := by
    unfold fetchConfluencePage at h
    cases hres : resolvePageIdForSite idOrUrl config.site <;> rw [hres] at h <;>
      simp at h
    rw [← h]
  refine ⟨hver, ?_, ?_, ?_⟩
  · intro hnone
    simp [hver, hnone]
  · intro n hsome hn
    rw [hver, hsome]
    exact hn
  · intro hnone
    simp [hver, hnone]

theorem C9_version_default_witness :
    (fetchConfluencePage cfgW "123" srvW "t0").outcome = .ok exportW ∧
    exportW.page.version = 1 :=
  ⟨fetchConfluencePage_cfgW,
   (C9_version_default cfgW "123" srvW "t0" exportW fetchConfluencePage_cfgW).2.1 rfl⟩

/-! ## Parser lemmas for C2 and C3 -/

theorem all_takeWhile_self {α : Type} (p : α → Bool) :
    ∀ l : List α, (l.takeWhile p).all p = true
  | [] => rfl
  | c :: cs => by
      by_cases h : p c <;> simp [List.takeWhile, h, all_takeWhile_self p cs]

theorem matchPagesAt_digits (cs ds : List Char) (h : matchPagesAt cs = some ds) :
    ds.isEmpty = false ∧ ds.all Char.isDigit = true := by
  unfold matchPagesAt at h
  split at h
  case h_2 => exact absurd h (by simp)
  case h_1 after =>
    by_cases he : (after.takeWhile Char.isDigit).isEmpty
    · simp [he] at h
    · rw [if_neg he] at h
      have hds : ds = after.takeWhile Char.isDigit := by
        split at h
        · exact (Option.some.inj h).symm
        · exact (Option.some.inj h).symm
        · exact absurd h (by simp)
      subst hds
      exact ⟨by simpa using he, all_takeWhile_self _ _⟩

theorem data_asString (l : List Char) : (List.asString l).data = l := rfl

theorem findPagesId_numeric :
    ∀ cs : List Char, ∀ p : String, findPagesId cs = some p →
      isNumericString p = true
  | [], p, h => by simp [findPagesId] at h
  | c :: cs, p, h => by
      rw [findPagesId] at h
      cases hm : matchPagesAt (c :: cs) with
      | some ds =>
          rw [hm] at h
          obtain ⟨h1, h2⟩ := matchPagesAt_digits _ _ hm
          simp at h
          subst h
          simp [isNumericString, data_asString, h1, h2]
      | none =>
          rw [hm] at h
          exact findPagesId_numeric cs p h

theorem parseURL_host_ne_empty (s : String) (u : UrlParts)
    (h : parseURL s = some u) : u.host.data ≠ [] := by
  unfold parseURL at h
  cases hs : splitScheme s.data with
  | none => simp [hs] at h
  | some pr =>
      obtain ⟨scheme, rest⟩ := pr
      simp only [hs] at h
      cases hb1 : (scheme.isEmpty || !scheme.all Char.isAlpha) with
      | true => simp [hb1] at h
      | false =>
          simp only [hb1, Bool.false_eq_true, if_false] at h
          cases hb2 : (authorityOf rest).isEmpty with
          | true => simp [hb2] at h
          | false =>
              simp only [hb2, Bool.false_eq_true, if_false, Option.some.injEq] at h
              subst h
              intro hc
              have hnil : authorityOf rest = [] := hc
              rw [hnil] at hb2
              simp at hb2

theorem lowerStr_ne_empty (x : String) (h : x.data ≠ []) :
    strIsEmpty (lowerStr x) = false := by
  simp [strIsEmpty, lowerStr, List.asString]
  intro hc
  exact absurd hc h

theorem parsePageInput_ok_host (s : String) (pr : ParsedPageInput) (hst : String)
    (h : parsePageInput s = .ok pr) (hh : pr.hostFromUrl = some hst) :
    strIsEmpty hst = false := by
  unfold parsePageInput at h
  by_cases hnum : isNumericString (trimStr s)
  · simp [hnum] at h
    rw [← h] at hh
    simp at hh
  · simp only [hnum, Bool.false_eq_true, if_false] at h
    cases hu : parseURL (trimStr s) with
    | none => rw [hu] at h; simp at h
    | some u =>
        rw [hu] at h
        simp only at h
        cases hpid : (findPagesId u.pathname.data <|> searchParamsGet u.query "pageId") with
        | none => rw [hpid] at h; simp at h
        | some pid =>
            rw [hpid] at h
            by_cases hn : isNumericString pid
            · simp [hn] at h
              rw [← h] at hh
              simp at hh
              subst hh
              exact lowerStr_ne_empty u.host (parseURL_host_ne_empty _ u hu)
            · simp [hn] at h

theorem parsePageInput_error_invalid (s : String) (e : AtlasError)
    (h : parsePageInput s = .error e) : ∃ m, e = .invalidInput m := by
  unfold parsePageInput at h
  by_cases hnum : isNumericString (trimStr s)
  · simp [hnum] at h
  · simp only [hnum, Bool.false_eq_true, if_false] at h
    cases hu : parseURL (trimStr s) with
    | none =>
        rw [hu] at h
        simp at h
        exact ⟨_, h.symm⟩
    | some u =>
        rw [hu] at h
        simp only at h
        cases hpid : (findPagesId u.pathname.data <|> searchParamsGet u.query "pageId") with
        | none =>
            rw [hpid] at h
            simp at h
            exact ⟨_, h.symm⟩
        | some pid =>
            rw [hpid] at h
            by_cases hn : isNumericString pid
            · simp [hn] at h
            · simp [hn] at h
              exact ⟨_, h.symm⟩

theorem resolve_of_error (idOrUrl configuredSite : String) (e : AtlasError)
    (hp : parsePageInput idOrUrl = .error e) :
    resolvePageIdForSite idOrUrl configuredSite = .error e := by
  simp [resolvePageIdForSite, Bind.bind, Except.bind, hp]

theorem resolve_of_no_host (idOrUrl configuredSite : String) (pr : ParsedPageInput)
    (hp : parsePageInput idOrUrl = .ok pr) (hh : pr.hostFromUrl = none) :
    resolvePageIdForSite idOrUrl configuredSite = .ok pr.pageId := by
  simp [resolvePageIdForSite, Bind.bind, Except.bind, hp, hh]

theorem resolve_of_host_match (idOrUrl configuredSite : String) (pr : ParsedPageInput)
    (h : String) (hp : parsePageInput idOrUrl = .ok pr) (hh : pr.hostFromUrl = some h)
    (heq : h = lowerStr configuredSite) :
    resolvePageIdForSite idOrUrl configuredSite = .ok pr.pageId := by
  subst heq
  simp [resolvePageIdForSite, Bind.bind, Except.bind, hp, hh]

theorem resolve_of_host_mismatch (idOrUrl configuredSite : String) (pr : ParsedPageInput)
    (h : String) (hp : parsePageInput idOrUrl = .ok pr) (hh : pr.hostFromUrl = some h)
    (hne : h ≠ lowerStr configuredSite) :
    resolvePageIdForSite idOrUrl configuredSite = .error (.hostMismatch h configuredSite) := by
  have hemp := parsePageInput_ok_host idOrUrl pr h hp hh
  simp [resolvePageIdForSite, Bind.bind, Except.bind, hp, hh, hemp, hne]

/-- C2 counterexample: an input that is a URL whose host differs from
the configured site, but from which no numeric page ID can be
extracted, fails with `InvalidInput` — not `HostMismatch` — because
ID extraction runs first.  This refutes the unconditional "fails with
HostMismatch iff the URL's host differs". -/
theorem C2_counterexample :
    parseURL (trimStr "https://other.atlassian.net/wiki/spaces/ENG/overview") =
      some ⟨"https", "other.atlassian.net", "/wiki/spaces/ENG/overview", ""⟩ ∧
    lowerStr "other.atlassian.net" ≠ lowerStr "example.atlassian.net" ∧
    resolvePageIdForSite "https://other.atlassian.net/wiki/spaces/ENG/overview"
      "example.atlassian.net" =
      .error (.invalidInput "Could not extract a numeric page ID from the provided URL.") ∧
    AtlasError.invalidInput "Could not extract a numeric page ID from the provided URL." ≠
      .hostMismatch "other.atlassian.net" "example.atlassian.net" := by
  exact ⟨by decide, by decide, by decide, by decide⟩

/-- C2 (amended): `resolvePageIdForSite` fails with `HostMismatch`
(carrying the URL host and the configured site) exactly when the input
parses successfully to a page ID with a URL-derived host whose
lowercased form differs from the lowercased configured site; a
matching host succeeds regardless of case; a bare numeric ID (no URL
host) is never host-checked; and on any resolution failure
`fetchConfluencePage` fails with the same error having issued no
request. -/
theorem C2_host_mismatch_gate (idOrUrl configuredSite : String) :
    ((∃ hm, resolvePageIdForSite idOrUrl configuredSite =
        .error (.hostMismatch hm configuredSite)) ↔
      (∃ pr h, parsePageInput idOrUrl = .ok pr ∧ pr.hostFromUrl = some h ∧
        h ≠ lowerStr configuredSite)) ∧
    (∀ pr h, parsePageInput idOrUrl = .ok pr → pr.hostFromUrl = some h →
      h ≠ lowerStr configuredSite →
      resolvePageIdForSite idOrUrl configuredSite =
        .error (.hostMismatch h configuredSite)) ∧
    (∀ pr h, parsePageInput idOrUrl = .ok pr → pr.hostFromUrl = some h →
      h = lowerStr configuredSite →
      resolvePageIdForSite idOrUrl configuredSite = .ok pr.pageId) ∧
    (∀ pr, parsePageInput idOrUrl = .ok pr → pr.hostFromUrl = none →
      resolvePageIdForSite idOrUrl configuredSite = .ok pr.pageId) ∧
    (∀ (config : RequiredConfig) (srv : PageServer) (now : String) (e : AtlasError),
      config.site = configuredSite →
      resolvePageIdForSite idOrUrl configuredSite = .error e →
      (fetchConfluencePage config idOrUrl srv now).outcome = .error e ∧
      (fetchConfluencePage config idOrUrl srv now).requests = []) := by
  refine ⟨⟨?_, ?_⟩, ?_, ?_, ?_, ?_⟩
  · rintro ⟨hm, he⟩
    cases hp : parsePageInput idOrUrl with
    | error e =>
        rw [resolve_of_error idOrUrl configuredSite e hp] at he
        obtain ⟨m, rfl⟩ := parsePageInput_error_invalid idOrUrl e hp
        simp at he
    | ok pr =>
        cases hh : pr.hostFromUrl with
        | none =>
            rw [resolve_of_no_host idOrUrl configuredSite pr hp hh] at he
            simp at he
        | some h =>
            by_cases hne : h = lowerStr configuredSite
            · rw [resolve_of_host_match idOrUrl configuredSite pr h hp hh hne] at he
              simp at he
            · exact ⟨pr, h, rfl, hh, hne⟩
  · rintro ⟨pr, h, hp, hh, hne⟩
    exact ⟨h, resolve_of_host_mismatch idOrUrl configuredSite pr h hp hh hne⟩
  · intro pr h hp hh hne
    exact resolve_of_host_mismatch idOrUrl configuredSite pr h hp hh hne
  · intro pr h hp hh heq
    exact resolve_of_host_match idOrUrl configuredSite pr h hp hh heq
  · intro pr hp hh
    exact resolve_of_no_host idOrUrl configuredSite pr hp hh
  · intro config srv now e hsite hres
    subst hsite
    unfold fetchConfluencePage
    rw [hres]
    exact ⟨rfl, rfl⟩

/-- Parsed form of the C2 witness URL (mismatching host). -/
def prC2 : ParsedPageInput := ⟨"55", some "other.atlassian.net"⟩

theorem C2_host_mismatch_gate_witness :
    resolvePageIdForSite "https://other.atlassian.net/wiki/pages/viewpage.action?pageId=55"
      "example.atlassian.net" =
      .error (.hostMismatch "other.atlassian.net" "example.atlassian.net") ∧
    resolvePageIdForSite "https://EXAMPLE.Atlassian.net/wiki/pages/viewpage.action?pageId=55"
      "Example.atlassian.net" = .ok "55" ∧
    resolvePageIdForSite "22982787097" "example.atlassian.net" = .ok "22982787097" ∧
    (fetchConfluencePage cfgW
      "https://other.atlassian.net/wiki/pages/viewpage.action?pageId=55" srvW "t0").requests
      = [] :=
  ⟨(C2_host_mismatch_gate
      "https://other.atlassian.net/wiki/pages/viewpage.action?pageId=55"
      "example.atlassian.net").2.1 prC2 "other.atlassian.net" (by decide) (by decide)
      (by decide),
   (C2_host_mismatch_gate
      "https://EXAMPLE.Atlassian.net/wiki/pages/viewpage.action?pageId=55"
      "Example.atlassian.net").2.2.1 ⟨"55", some "example.atlassian.net"⟩
      "example.atlassian.net" (by decide) (by decide) (by decide),
   (C2_host_mismatch_gate "22982787097" "example.atlassian.net").2.2.2.1
      ⟨"22982787097", none⟩ (by decide) (by decide),
   ((C2_host_mismatch_gate
      "https://other.atlassian.net/wiki/pages/viewpage.action?pageId=55"
      "example.atlassian.net").2.2.2.2 cfgW srvW "t0"
      (.hostMismatch "other.atlassian.net" "example.atlassian.net") rfl (by decide)).2⟩

/-- C3: `parsePageInput` treats a trimmed all-digit input as the page
ID with no host; otherwise the input must parse as a URL, the ID is
the first `/pages/<digits>` path match (always numeric) or else the
`pageId` query parameter, the host is the URL's host lower-cased, and
every failure is `InvalidInput` (unparseable input, no extractable
ID, or a non-numeric query value). -/
theorem C3_parsePageInput_cases (s : String) :
    (isNumericString (trimStr s) = true →
      parsePageInput s = .ok ⟨trimStr s, none⟩) ∧
    (isNumericString (trimStr s) = false → parseURL (trimStr s) = none →
      parsePageInput s = .error (.invalidInput
        "Invalid page identifier. Provide a numeric page ID or a full Confluence page URL.")) ∧
    (∀ u, isNumericString (trimStr s) = false → parseURL (trimStr s) = some u →
      (∀ p, findPagesId u.pathname.data = some p →
        parsePageInput s = .ok ⟨p, some (lowerStr u.host)⟩ ∧ isNumericString p = true) ∧
      (findPagesId u.pathname.data = none →
        (∀ q, searchParamsGet u.query "pageId" = some q → isNumericString q = true →
          parsePageInput s = .ok ⟨q, some (lowerStr u.host)⟩) ∧
        (∀ q, searchParamsGet u.query "pageId" = some q → isNumericString q = false →
          parsePageInput s = .error (.invalidInput
            "Could not extract a numeric page ID from the provided URL.")) ∧
        (searchParamsGet u.query "pageId" = none →
          parsePageInput s = .error (.invalidInput
            "Could not extract a numeric page ID from the provided URL.")))) := by
  refine ⟨?_, ?_, ?_⟩
  · intro hnum
    simp [parsePageInput, hnum]
  · intro hnum hurl
    simp [parsePageInput, hnum, hurl]
  · intro u hnum hu
    refine ⟨?_, ?_⟩
    · intro p hp
      have hnp := findPagesId_numeric u.pathname.data p hp
      exact ⟨by simp [parsePageInput, hnum, hu, hp, hnp], hnp⟩
    · intro hp
      refine ⟨?_, ?_, ?_⟩
      · intro q hq hnq
        simp [parsePageInput, hnum, hu, hp, hq, hnq]
      · intro q hq hnq
        simp [parsePageInput, hnum, hu, hp, hq, hnq]
      · intro hq
        simp [parsePageInput, hnum, hu, hp, hq]

/-- Parsed URL of the C3 witness inputs. -/
def urlC3a : UrlParts :=
  ⟨"https", "example.atlassian.net", "/wiki/spaces/ENG/pages/22982787097/My+Page", ""⟩

def urlC3b : UrlParts :=
  ⟨"https", "example.atlassian.net", "/wiki/pages/viewpage.action", "pageId=22982787097"⟩

theorem C3_parsePageInput_cases_witness :
    parsePageInput " 22982787097 " = .ok ⟨"22982787097", none⟩ ∧
    parsePageInput "https://example.atlassian.net/wiki/spaces/ENG/pages/22982787097/My+Page" =
      .ok ⟨"22982787097", some "example.atlassian.net"⟩ ∧
    parsePageInput "https://example.atlassian.net/wiki/pages/viewpage.action?pageId=22982787097" =
      .ok ⟨"22982787097", some "example.atlassian.net"⟩ ∧
    parsePageInput "not a url" = .error (.invalidInput
      "Invalid page identifier. Provide a numeric page ID or a full Confluence page URL.") ∧
    parsePageInput "https://example.atlassian.net/wiki/spaces/ENG/overview" =
      .error (.invalidInput "Could not extract a numeric page ID from the provided URL.") :=
  ⟨(C3_parsePageInput_cases " 22982787097 ").1 (by decide),
   ((C3_parsePageInput_cases
      "https://example.atlassian.net/wiki/spaces/ENG/pages/22982787097/My+Page").2.2
      urlC3a (by decide) (by decide)).1 "22982787097" (by decide) |>.1,
   (((C3_parsePageInput_cases
      "https://example.atlassian.net/wiki/pages/viewpage.action?pageId=22982787097").2.2
      urlC3b (by decide) (by decide)).2 (by decide)).1 "22982787097" (by decide) (by decide),
   (C3_parsePageInput_cases "not a url").2.1 (by decide) (by decide),
   (((C3_parsePageInput_cases
      "https://example.atlassian.net/wiki/spaces/ENG/overview").2.2
      ⟨"https", "example.atlassian.net", "/wiki/spaces/ENG/overview", ""⟩
      (by decide) (by decide)).2 (by decide)).2.2 (by decide)⟩

/-- First response page of the C4 counterexample: it carries a
`_links.next`, but that link is the empty string. -/
def respNextEmpty : RespPage Nat := ⟨200, "OK", .arr [1], some ""⟩

/-- Second response page of the C4 counterexample. -/
def respFinal : RespPage Nat := ⟨200, "OK", .arr [2], none⟩

/-- C4 counterexample: the first page carries `_links.next` (the empty
string), yet the loop stops after it — one request, items `[1]`, not
the full concatenation `[1, 2]` — because the source tests JS
truthiness, not presence; and a link beginning with `/wiki` but not
`/wiki/` is not stripped. -/
theorem C4_counterexample :
    respNextEmpty.next = some "" ∧
    fetchAllPages "https://example.atlassian.net/wiki" "/p" [respNextEmpty, respFinal] =
      .done [1] ["https://example.atlassian.net/wiki/p"] ∧
    ([1] : List Nat) ≠ [1, 2] ∧
    strStartsWith "/wikis/a" "/wiki" = true ∧
    normalizePaginationLink "/wikis/a" = "/wikis/a" ∧
    strDrop "/wikis/a" 5 = "s/a" ∧
    normalizePaginationLink "/wikis/a" ≠ strDrop "/wikis/a" 5 := by
  exact ⟨rfl, by decide, by decide, by decide, by decide, by decide, by decide⟩

/-- C4 (amended): for every well-formed response chain (2xx statuses,
every page but the last carrying a truthy `next`), `fetchAllPages`
returns exactly the concatenation of the array-shaped `results` in
response order, issuing exactly one sequential request per page; the
loop continues exactly while `_links.next` is present and nonempty
(JS truthiness); a next link is used as-is when it starts with
`http://` or `https://`, has the 5-character prefix `"/wiki"` stripped
when it starts with `"/wiki/"`, and is used as-is otherwise. -/
theorem C4_pagination (baseUrl path : String) (rs : List (RespPage α))
    (h : chainOk rs = true) :
    (∃ reqs, fetchAllPages baseUrl path rs = .done (flatResults rs) reqs ∧
      reqs.length = rs.length) ∧
    (∀ r : RespPage α, nextTruthy r = false ↔ (r.next = none ∨ r.next = some "")) ∧
    (∀ n, (strStartsWith n "http://" || strStartsWith n "https://") = true →
      normalizePaginationLink n = n) ∧
    (∀ n, (strStartsWith n "http://" || strStartsWith n "https://") = false →
      strStartsWith n "/wiki/" = true → normalizePaginationLink n = strDrop n 5) ∧
    (∀ n, (strStartsWith n "http://" || strStartsWith n "https://") = false →
      strStartsWith n "/wiki/" = false → normalizePaginationLink n = n) := by
  refine ⟨?_, ?_, ?_, ?_, ?_⟩
  · obtain ⟨reqs2, heq, hlen⟩ :=
      fetchAllGo_chain baseUrl rs (resolveRequestUrl baseUrl path) [] [] h
    exact ⟨reqs2, by simpa [fetchAllPages] using heq, by simpa using hlen⟩
  · intro r
    cases hn : r.next with
    | none => simp [nextTruthy, nextLink, hn]
    | some n =>
        simp only [nextTruthy, nextLink, hn]
        by_cases he : strIsEmpty n = true
        · have hn0 : n = "" := by
            cases n with
            | mk l =>
                cases l with
                | nil => rfl
                | cons c cs => simp [strIsEmpty] at he
          subst hn0
          decide
        · have hn0 : ¬(n = "") := by
            intro hcon
            subst hcon
            exact he rfl
          simp [he, hn0]
  · intro n hx
    simp [normalizePaginationLink, hx]
  · intro n hx hw
    simp [normalizePaginationLink, hx, hw]
  · intro n hx hw
    simp [normalizePaginationLink, hx, hw]

/-- Response chain for the C4 witness: an internal `/wiki/`-prefixed
next link, then a final page. -/
def rsC4 : List (RespPage Nat) :=
  [⟨200, "OK", .arr [5], some "/wiki/next"⟩, ⟨200, "OK", .arr [6, 7], none⟩]

theorem C4_pagination_witness :
    chainOk rsC4 = true ∧
    (∃ reqs, fetchAllPages "https://example.atlassian.net/wiki" "/start" rsC4 =
        .done (flatResults rsC4) reqs ∧ reqs.length = rsC4.length) ∧
    flatResults rsC4 = [5, 6, 7] ∧
    normalizePaginationLink "/wiki/rest/x" = "/rest/x" ∧
    normalizePaginationLink "https://e.net/wiki/p" = "https://e.net/wiki/p" ∧
    normalizePaginationLink "rel/path" = "rel/path" :=
  ⟨by decide,
   (C4_pagination "https://example.atlassian.net/wiki" "/start" rsC4 (by decide)).1,
   by decide,
   (C4_pagination "https://example.atlassian.net/wiki" "/start" rsC4 (by decide)).2.2.2.1
     "/wiki/rest/x" (by decide) (by decide),
   (C4_pagination "https://example.atlassian.net/wiki" "/start" rsC4 (by decide)).2.2.1
     "https://e.net/wiki/p" (by decide),
   (C4_pagination "https://example.atlassian.net/wiki" "/start" rsC4 (by decide)).2.2.2.2
     "rel/path" (by decide) (by decide)⟩

/-- C5: a non-2xx response makes `apiGet` fail with the transport
error carrying the status code, status text, method `GET` and the
request URL, and makes the whole pagination loop fail with that error:
the failed outcome carries no items (no partial result sequence), and
exactly one request was issued per page consumed up to and including
the failing one (no retry). -/
theorem C5_transport_error (baseUrl pathOrUrl path : String) (response : RespPage α)
    (pre : List (RespPage α)) (bad : RespPage α) (rest : List (RespPage α)) :
    (statusOk response.status = false →
      apiGet baseUrl pathOrUrl response =
        .error (.transportError response.status response.statusText "GET"
          (resolveRequestUrl baseUrl pathOrUrl))) ∧
    (∀ (st : Nat) (stx u : String),
      AtlasError.message (.transportError st stx "GET" u) =
        "Confluence API error " ++ toString st ++ " " ++ stx ++ ": GET " ++ u) ∧
    ((∀ p ∈ pre, statusOk p.status = true ∧ nextTruthy p = true) →
      statusOk bad.status = false →
      ∃ u reqs, fetchAllPages baseUrl path (pre ++ bad :: rest) =
          .failed (.transportError bad.status bad.statusText "GET" u) reqs ∧
        reqs.length = pre.length + 1 ∧ reqs.getLast? = some u ∧
        (∀ (items : List α) (reqs2 : List String),
          fetchAllPages baseUrl path (pre ++ bad :: rest) ≠ .done items reqs2)) := by
  refine ⟨?_, ?_, ?_⟩
  · intro hbad
    simp [apiGet, hbad]
  · intro st stx u
    have h1 : (": " : String) ++ "GET" = ": GET" := by decide
    have h2 : (": GET" : String) ++ " " = ": GET " := by decide
    simp only [AtlasError.message]
    rw [String.append_assoc _ ": " "GET", h1, String.append_assoc _ ": GET" " ", h2]
  · intro hpre hbad
    obtain ⟨u, reqs2, heq, hlen, hlast⟩ :=
      fetchAllGo_fail baseUrl pre bad rest (resolveRequestUrl baseUrl path) [] [] hpre hbad
    refine ⟨u, reqs2, by simpa [fetchAllPages] using heq, by simpa using hlen, hlast, ?_⟩
    intro items reqs3 hcon
    rw [fetchAllPages, heq] at hcon
    exact FetchOutcome.noConfusion hcon

/-- Responses for the C5 witness: one good page, then a 503. -/
def rsC5pre : List (RespPage Nat) := [⟨200, "OK", .arr [1], some "/next"⟩]

def respC5bad : RespPage Nat := ⟨503, "Service Unavailable", .missing, none⟩

def respC5single : RespPage Nat := ⟨404, "Not Found", .missing, none⟩

theorem C5_transport_error_witness :
    apiGet "https://example.atlassian.net/wiki" "/rest/api/content/1" respC5single =
      .error (.transportError 404 "Not Found" "GET"
        "https://example.atlassian.net/wiki/rest/api/content/1") ∧
    (∃ u reqs, fetchAllPages "https://example.atlassian.net/wiki" "/start"
        (rsC5pre ++ respC5bad :: []) =
        .failed (.transportError respC5bad.status respC5bad.statusText "GET" u) reqs ∧
      reqs.length = rsC5pre.length + 1 ∧ reqs.getLast? = some u ∧
      (∀ (items : List Nat) (reqs2 : List String),
        fetchAllPages "https://example.atlassian.net/wiki" "/start"
          (rsC5pre ++ respC5bad :: []) ≠ .done items reqs2)) :=
  ⟨(C5_transport_error "https://example.atlassian.net/wiki" "/rest/api/content/1"
      "/start" respC5single rsC5pre respC5bad []).1 (by decide),
   (C5_transport_error "https://example.atlassian.net/wiki" "/rest/api/content/1"
      "/start" respC5single rsC5pre respC5bad []).2.2 (by decide) (by decide)⟩

/-- C10: a response page whose `results` is absent or not an array
does not fail the loop: it contributes zero items, its `next` link is
still followed (one request per page of the chain), and the returned
sequence is the concatenation of only the array-shaped `results`. -/
theorem C10_nonarray_results (baseUrl path : String) (rs : List (RespPage α))
    (h : chainOk rs = true) :
    (∃ reqs, fetchAllPages baseUrl path rs = .done (flatResults rs) reqs ∧
      reqs.length = rs.length) ∧
    (∀ r : RespPage α, r.results = .nonArray ∨ r.results = .missing →
      pageItems r.results = []) ∧
    (∀ (r : RespPage α) (l : List α), r.results = .arr l → pageItems r.results = l) ∧
    (∀ (r : RespPage α) (rest : List (RespPage α)),
      flatResults (r :: rest) = pageItems r.results ++ flatResults rest) := by
  refine ⟨?_, ?_, ?_, ?_⟩
  · obtain ⟨reqs2, heq, hlen⟩ :=
      fetchAllGo_chain baseUrl rs (resolveRequestUrl baseUrl path) [] [] h
    exact ⟨reqs2, by simpa [fetchAllPages] using heq, by simpa using hlen⟩
  · rintro r (hr | hr) <;> simp [pageItems, hr]
  · intro r l hr
    simp [pageItems, hr]
  · intro r rest
    simp [flatResults]

/-- Response chain for the C10 witness: array, non-array, missing and
array result pages in one chain. -/
def rsC10 : List (RespPage Nat) :=
  [⟨200, "OK", .arr [7], some "/a"⟩, ⟨200, "OK", .nonArray, some "/b"⟩,
   ⟨200, "OK", .missing, some "/c"⟩, ⟨200, "OK", .arr [8], none⟩]

theorem C10_nonarray_results_witness :
    chainOk rsC10 = true ∧
    flatResults rsC10 = [7, 8] ∧
    (∃ reqs, fetchAllPages "https://example.atlassian.net/wiki" "/start" rsC10 =
        .done (flatResults rsC10) reqs ∧ reqs.length = rsC10.length) :=
  ⟨by decide, by decide,
   (C10_nonarray_results "https://example.atlassian.net/wiki" "/start" rsC10 (by decide)).1⟩

end Atlasctl
